import Mathlib

/-
Shallow embedding of the phazr execution engine (src/phazr/models.py,
src/phazr/executor.py, src/phazr/handlers.py).  Wall-clock readings are
abstracted into an explicit Clock value; the behaviour of the external
world (handler calls, spawned processes, task faults) is passed in as
explicit outcome functions, so every definition is a pure translation of
the corresponding Python control flow.
-/

namespace Phazr

/-- Operation type tags from models.py (class OperationType). -/
inductive OperationType where
  | script_exec
  | kubectl_exec
  | kubectl_restart
  | kubectl_apply
  | kubectl_delete
  | http_request
  | custom
  | skip
deriving DecidableEq, Repr

/-- String value of the enum member, as declared in models.py. -/
def OperationType.value : OperationType → String
  | .script_exec => "script_exec"
  | .kubectl_exec => "kubectl_exec"
  | .kubectl_restart => "kubectl_restart"
  | .kubectl_apply => "kubectl_apply"
  | .kubectl_delete => "kubectl_delete"
  | .http_request => "http_request"
  | .custom => "custom"
  | .skip => "skip"

/-- Operation (models.py, class Operation).  Fields not consulted by the
engine control flow (service, namespace, container, wait_for_ready,
expected_output, metadata) are omitted; integers are Int as in Python. -/
structure Operation where
  command : String
  description : String
  type : OperationType
  timeout : Int := 300
  test_command : Option String := none
  retry_count : Int := 0
  retry_delay : Int := 5
  skip_if : Option String := none
  fail_on_error : Bool := true
deriving DecidableEq, Repr

/-- ExecutionResult (models.py).  duration is a float in the source. -/
structure ExecutionResult where
  operation : Operation
  success : Bool
  output : Option String := none
  error : Option String := none
  duration : Float := 0.0
  timestamp : Option String := none
  retries_used : Nat := 0
deriving Repr

/-- Phase (models.py).  description and icon are presentation-only. -/
structure Phase where
  name : String
  groups : List String := []
  depends_on : List String := []
  continue_on_error : Bool := false
  parallel_groups : Bool := false
  enabled : Bool := true
deriving Repr

/-- PhaseResult (models.py). -/
structure PhaseResult where
  phase_name : String
  version : String
  results : List ExecutionResult
  total_operations : Nat
  successful_operations : Nat
  failed_operations : Nat
  skipped_operations : Nat
  duration : Float := 0.0
deriving Repr

/-- success_rate property of PhaseResult (models.py lines 105-110). -/
def PhaseResult.success_rate (p : PhaseResult) : Float :=
  if p.total_operations = 0 then 100.0
  else (Float.ofNat p.successful_operations / Float.ofNat p.total_operations) * 100.0

/-- is_successful property of PhaseResult (models.py lines 112-115). -/
def PhaseResult.is_successful (p : PhaseResult) : Bool :=
  p.failed_operations = 0

/-- Abstraction of the wall clock: the timestamp string produced by
str(int(time.time())) and the elapsed seconds time.time() - start_time. -/
structure Clock where
  now : String
  elapsed : Float

/-- evaluate_condition (executor.py lines 415-419): the source is an
explicit stub that always returns False. -/
def evaluate_condition (_condition : String) : Bool := false

/-- run_test_command (executor.py lines 421-424): the source is an
explicit stub that always returns True. -/
def run_test_command (_test_command : String) : Bool := true

/-- Python truthiness of an Optional[str]: None and the empty string are
falsy. -/
def strTruthy : Option String → Bool
  | none => false
  | some s => s ≠ ""

/-- create_dry_run_result (executor.py lines 426-434). -/
def create_dry_run_result (operation : Operation) (clock : Clock) : ExecutionResult :=
  { operation := operation
    success := true
    output := some ("[DRY RUN] Would execute: " ++ operation.description)
    duration := 0.0
    timestamp := some clock.now }

/-- Outcome of one call to handler.execute: either a normal return of an
ExecutionResult or a raised exception carrying its message. -/
inductive HandlerOutcome where
  | returned (r : ExecutionResult)
  | raised (msg : String)
deriving Repr

/-- A handler is modelled by the outcome of its k-th invocation in the
retry loop of one _execute_operation call. -/
def Handler := Nat → HandlerOutcome

/-- Retry loop of _execute_operation (executor.py lines 377-413).  fuel is
the number of remaining loop iterations, i.e. retry_count + 1 - retries;
the second component of the value counts handler.execute invocations.
The loop body also raises (and so retries) when a configured test command
fails after a successful return, which with the source stub
run_test_command never happens. -/
def retry_loop (operation : Operation) (handler : Handler) (clock : Clock) :
    Nat → Nat → Option String → ExecutionResult × Nat
  | 0, retries, last_error =>
      ({ operation := operation
         success := false
         error := last_error
         duration := clock.elapsed
         timestamp := some clock.now
         retries_used := retries }, 0)
  | fuel + 1, retries, _ =>
      match handler retries with
      | .returned r =>
          if strTruthy operation.test_command && r.success
              && !run_test_command (operation.test_command.getD "") then
            let (res, calls) :=
              retry_loop operation handler clock fuel (retries + 1)
                (some "Test command failed")
            (res, calls + 1)
          else
            ({ r with retries_used := retries, duration := clock.elapsed }, 1)
      | .raised msg =>
          let (res, calls) :=
            retry_loop operation handler clock fuel (retries + 1) (some msg)
          (res, calls + 1)

/-- _execute_operation (executor.py lines 353-413), instrumented with the
number of handler.execute calls made.  get_handler is the lookup function
of the HandlerRegistry (handlers.py lines 341-343). -/
def execute_operation (operation : Operation)
    (get_handler : OperationType → Option Handler) (clock : Clock) :
    ExecutionResult × Nat :=
  if strTruthy operation.skip_if && evaluate_condition (operation.skip_if.getD "") then
    ({ operation := operation
       success := true
       output := some "Operation skipped due to condition"
       duration := 0.0
       timestamp := some clock.now }, 0)
  else
    match get_handler operation.type with
    | none =>
        ({ operation := operation
           success := false
           error := some ("No handler registered for operation type: "
             ++ operation.type.value)
           duration := 0.0
           timestamp := some clock.now }, 0)
    | some handler =>
        retry_loop operation handler clock (operation.retry_count + 1).toNat 0 none

/-- Body of one iteration of the loop in _execute_sequential (executor.py
lines 277-280): in dry-run mode the synthetic dry-run result, otherwise
the ExecutionResult of _execute_operation for the operation at position i
of the group (exec_op abstracts that call and its world). -/
def sequential_step (dry_run : Bool)
    (exec_op : Nat → Operation → ExecutionResult) (clock : Clock)
    (i : Nat) (operation : Operation) : ExecutionResult :=
  if dry_run then create_dry_run_result operation clock
  else exec_op i operation

/-- _execute_sequential (executor.py lines 261-291).  Display
notifications carry no engine semantics and are dropped.  The loop
appends each result and then breaks when the result is unsuccessful and
the operation has fail_on_error. -/
def execute_sequential_from (dry_run : Bool)
    (exec_op : Nat → Operation → ExecutionResult) (clock : Clock) :
    Nat → List Operation → List ExecutionResult
  | _, [] => []
  | i, operation :: rest =>
      let result := sequential_step dry_run exec_op clock i operation
      if !result.success && operation.fail_on_error then [result]
      else result :: execute_sequential_from dry_run exec_op clock (i + 1) rest

/-- Entry point of the sequential group path. -/
def execute_sequential (dry_run : Bool)
    (exec_op : Nat → Operation → ExecutionResult) (clock : Clock)
    (operations : List Operation) : List ExecutionResult :=
  execute_sequential_from dry_run exec_op clock 0 operations

/-- Outcome of an awaited task in the parallel path: the gathered value is
either an ExecutionResult or a raised exception (return_exceptions=True). -/
inductive TaskOutcome where
  | ok (r : ExecutionResult)
  | exn (msg : String)
deriving Repr

/-- Task creation loop of _execute_parallel (executor.py lines 307-318):
one task per operation is created, in input order, before any chunk is
awaited; in dry-run mode the task is a wrapper around
create_dry_run_result, otherwise its outcome is that of
_execute_operation for the operation at that position. -/
def parallel_tasks (dry_run : Bool) (task_outcome : Nat → TaskOutcome)
    (clock : Clock) (operations : List Operation) :
    List (Operation × TaskOutcome) :=
  (operations.enum).map fun p =>
    if dry_run then (p.2, TaskOutcome.ok (create_dry_run_result p.2 clock))
    else (p.2, task_outcome p.1)

/-- Fuelled chunking loop. -/
def chunk_list_aux (chunk_size : Nat) : Nat → List α → List (List α)
  | 0, _ => []
  | _, [] => []
  | fuel + 1, lst =>
      lst.take chunk_size :: chunk_list_aux chunk_size fuel (lst.drop chunk_size)

/-- _chunk_list (executor.py lines 436-439): successive slices of at most
chunk_size elements.  The Python generator iterates range(0, len, size),
which for a positive size yields ceil(len/size) slices; the fuel equals
the list length, which bounds that iteration count for any positive
chunk_size (the source raises ValueError for size 0, so every statement
below assumes a positive chunk size). -/
def chunk_list (lst : List α) (chunk_size : Nat) : List (List α) :=
  chunk_list_aux chunk_size lst.length lst

/-- Conversion of one gathered value back into an ExecutionResult
(executor.py lines 330-349): an exception becomes a failed result with
duration 0 and error set to the exception text. -/
def gather_result (p : Operation × TaskOutcome) : ExecutionResult :=
  match p.2 with
  | .ok r => r
  | .exn msg =>
      { operation := p.1
        success := false
        error := some msg
        duration := 0.0 }

/-- _execute_parallel (executor.py lines 293-351): create all tasks, chunk
them by max_parallel, gather each chunk in order and convert every
gathered value into a result, preserving input order. -/
def execute_parallel (dry_run : Bool) (task_outcome : Nat → TaskOutcome)
    (clock : Clock) (max_parallel : Nat) (operations : List Operation) :
    List ExecutionResult :=
  ((chunk_list (parallel_tasks dry_run task_outcome clock operations)
      max_parallel).map (fun chunk => chunk.map gather_result)).flatten

/-- Aggregation of a list of ExecutionResults into a PhaseResult
(executor.py lines 212-229 of run_phase). -/
def aggregate_phase (phase_name : String) (version : String)
    (all_results : List ExecutionResult) (duration : Float) : PhaseResult :=
  { phase_name := phase_name
    version := version
    results := all_results
    total_operations := all_results.length
    successful_operations := all_results.countP (fun r => r.success)
    failed_operations := all_results.countP
      (fun r => !r.success && decide (r.operation.type ≠ OperationType.skip))
    skipped_operations := all_results.countP
      (fun r => decide (r.operation.type = OperationType.skip))
    duration := duration }

/-- Phase loop of run_full_setup (executor.py lines 90-133).  run_phase
gives the PhaseResult produced by running a phase; completed is the set
of names of phases already run in this same call.  Disabled phases and
phases with a dependency missing from completed are skipped without being
run, recorded or marked completed; after a run the loop breaks when the
result is unsuccessful and neither the phase nor the global configuration
has continue_on_error. -/
def run_full_setup_aux (run_phase : Phase → PhaseResult)
    (global_continue_on_error : Bool) :
    List Phase → List String → List PhaseResult
  | [], _ => []
  | phase :: rest, completed =>
      if !phase.enabled then
        run_full_setup_aux run_phase global_continue_on_error rest completed
      else if !(phase.depends_on.filter
          (fun dep => !completed.contains dep)).isEmpty then
        run_full_setup_aux run_phase global_continue_on_error rest completed
      else
        let phase_result := run_phase phase
        if !phase_result.is_successful && !phase.continue_on_error
            && !global_continue_on_error then
          [phase_result]
        else
          phase_result :: run_full_setup_aux run_phase global_continue_on_error
            rest (phase.name :: completed)

/-- run_full_setup (executor.py lines 90-133), starting from an empty
completed set. -/
def run_full_setup (run_phase : Phase → PhaseResult)
    (global_continue_on_error : Bool) (phases : List Phase) :
    List PhaseResult :=
  run_full_setup_aux run_phase global_continue_on_error phases []

/-- Outcome of the subprocess world for one ScriptHandler.execute call:
the process completes with a return code, stdout and stderr, or the wait
times out, or an exception is raised while spawning or waiting. -/
inductive ProcessOutcome where
  | completed (returncode : Int) (stdout : String) (stderr : String)
  | timed_out
  | raised (msg : String)
deriving Repr

/-- ScriptHandler.execute (handlers.py lines 27-63).  On completion the
result is success iff returncode is 0, output is the decoded stdout (the
empty bytes decode to the empty string), and error is the decoded stderr
only when stderr is non-empty and the call was not successful, otherwise
None.  A timeout is killed and re-raised as an exception, and every
exception is returned as a failed result with its message. -/
def script_handler_execute (operation : Operation) (world : ProcessOutcome) :
    ExecutionResult :=
  match world with
  | .completed returncode stdout stderr =>
      { operation := operation
        success := returncode = 0
        output := some stdout
        error :=
          if stderr ≠ "" && !(decide (returncode = 0)) then some stderr
          else none }
  | .timed_out =>
      { operation := operation
        success := false
        error := some ("Command timed out after " ++ toString operation.timeout
          ++ " seconds") }
  | .raised msg =>
      { operation := operation
        success := false
        error := some msg }

/-
Concrete sample data, used to evaluate the model on explicit inputs.
-/

/-- Fixed sample clock. -/
def clockW : Clock := { now := "1700000000", elapsed := 2.5 }

/-- Sample operation with two retries configured. -/
def opRetry : Operation :=
  { command := "do-thing", description := "retrying op", type := .custom,
    retry_count := 2 }

/-- Sample operation of a type with no registered handler. -/
def opNoHandler : Operation :=
  { command := "GET /", description := "http op", type := .http_request,
    retry_count := 5 }

/-- Sample operation whose handler fails without writing to stderr. -/
def opSilent : Operation :=
  { command := "exit 1", description := "fails silently", type := .script_exec }

/-- Sample skip-type operation. -/
def opSkipType : Operation :=
  { command := "", description := "skipped op", type := .skip }

/-- Sample script operation that fails, with fail_on_error set. -/
def opFailStop : Operation :=
  { command := "bad", description := "failing op", type := .script_exec }

/-- Sample script operation that succeeds. -/
def opOk : Operation :=
  { command := "good", description := "ok op", type := .script_exec }

/-- Successful ExecutionResult for opSkipType: exactly what a dry run of a
skip-type operation produces. -/
def resSkipSuccess : ExecutionResult :=
  create_dry_run_result opSkipType clockW

/-- Failed result for opFailStop. -/
def resFailStop : ExecutionResult :=
  { operation := opFailStop, success := false, error := some "boom" }

/-- Successful result for opOk. -/
def resOk : ExecutionResult :=
  { operation := opOk, success := true, output := some "done" }

/-- Handler that raises on every attempt, with a distinct message per
attempt. -/
def handlerAlwaysRaises : Handler :=
  fun n => .raised ("attempt failed " ++ toString n)

/-- Failed result returned normally by a handler. -/
def resHandlerFailure : ExecutionResult :=
  { operation := opRetry, success := false, error := some "handler failed" }

/-- Handler that raises on its first call and then returns a failed
result normally. -/
def handlerRaiseThenFail : Handler :=
  fun n => match n with
    | 0 => .raised "first failure"
    | _ => .returned resHandlerFailure

/-- Registry lookup that finds handlerAlwaysRaises for every type. -/
def ghRaise : OperationType → Option Handler :=
  fun _ => some handlerAlwaysRaises

/-- Registry lookup that finds handlerRaiseThenFail for every type. -/
def ghRaiseThenFail : OperationType → Option Handler :=
  fun _ => some handlerRaiseThenFail

/-- Registry lookup with nothing registered. -/
def ghEmpty : OperationType → Option Handler := fun _ => none

/-- Task outcomes for the parallel witnesses: the first task raises, the
second returns resOk. -/
def taskOutcomeW : Nat → TaskOutcome :=
  fun i => if i = 0 then .exn "task blew up" else .ok resOk

/-- Per-position operation results for the sequential witness: position 0
fails, later positions succeed. -/
def execOpW : Nat → Operation → ExecutionResult :=
  fun i _ => if i = 0 then resFailStop else resOk

/-- Three sample operations for the parallel batching evaluation. -/
def opsThree : List Operation := [opOk, opFailStop, opRetry]

/-- Task outcome used in the parallel batching evaluation. -/
def taskOutcomeOk : Nat → TaskOutcome := fun _ => .ok resOk

/-- Disabled phase A. -/
def phaseA : Phase := { name := "A", groups := ["g1"], enabled := false }

/-- Phase B depending on A. -/
def phaseB : Phase := { name := "B", groups := ["g2"], depends_on := ["A"] }

/-- Trivial phase outcome function for the driver witness. -/
def runPhaseW : Phase → PhaseResult :=
  fun ph => aggregate_phase ph.name "v1" [] 0.0

/-
Helper lemmas about the retry loop and execute_operation.
-/

/-- With the source stub run_test_command, the test-command guard of the
retry loop is always false. -/
lemma test_guard_false (operation : Operation) (r : ExecutionResult) :
    (strTruthy operation.test_command && r.success
      && !run_test_command (operation.test_command.getD "")) = false := by
  simp [run_test_command]

/-- A normal handler return ends the retry loop at once: the handler
result is returned with retries_used stamped to the current attempt
counter and duration overwritten with the whole-sequence elapsed time,
after exactly one further handler call. -/
lemma retry_loop_returned (operation : Operation) (handler : Handler)
    (clock : Clock) (fuel retries : Nat) (le : Option String)
    (r : ExecutionResult) (h : handler retries = .returned r) :
    retry_loop operation handler clock (fuel + 1) retries le =
      ({ r with retries_used := retries, duration := clock.elapsed }, 1) := by
  simp [retry_loop, h, run_test_command]

/-- One raised attempt: the loop records the message, increments the
attempt counter and continues with one unit of fuel consumed. -/
lemma retry_loop_raised_step (operation : Operation) (handler : Handler)
    (clock : Clock) (fuel retries : Nat) (le : Option String) (m : String)
    (h0 : handler retries = .raised m) :
    retry_loop operation handler clock (fuel + 1) retries le =
      ((retry_loop operation handler clock fuel (retries + 1) (some m)).1,
       (retry_loop operation handler clock fuel (retries + 1) (some m)).2
         + 1) := by
  simp [retry_loop, h0]

/-- If the handler raises on every attempt, the retry loop consumes all
its fuel, making one handler call per unit of fuel, and ends in the
exhausted-retries failure carrying the last raised message. -/
lemma retry_loop_all_raised (operation : Operation) (handler : Handler)
    (clock : Clock) (msg : Nat → String)
    (h : ∀ n, handler n = .raised (msg n)) :
    ∀ fuel retries le, retry_loop operation handler clock (fuel + 1) retries le =
      ({ operation := operation
         success := false
         error := some (msg (retries + fuel))
         duration := clock.elapsed
         timestamp := some clock.now
         retries_used := retries + fuel + 1 }, fuel + 1) := by
  intro fuel
  induction fuel with
  | zero =>
      intro retries le
      simp [retry_loop, h retries]
  | succ f ih =>
      intro retries le
      rw [retry_loop_raised_step operation handler clock (f + 1) retries le
        (msg retries) (h retries)]
      rw [ih (retries + 1) (some (msg retries))]
      have e1 : retries + 1 + f = retries + (f + 1) := by omega
      have e2 : retries + 1 + f + 1 = retries + (f + 1) + 1 := by omega
      simp [e1, e2]

/-- If the first k attempts raise and attempt k returns a result
normally, the retry loop returns that result immediately with
retries_used = k, after exactly k + 1 handler calls, provided the fuel
allows at least k + 1 iterations. -/
lemma retry_loop_prefix_raised (operation : Operation) (handler : Handler)
    (clock : Clock) (msg : Nat → String) (r : ExecutionResult) :
    ∀ k retries f le,
      (∀ j, j < k → handler (retries + j) = .raised (msg (retries + j))) →
      handler (retries + k) = .returned r →
      retry_loop operation handler clock (k + f + 1) retries le =
        ({ r with retries_used := retries + k, duration := clock.elapsed },
          k + 1) := by
  intro k
  induction k with
  | zero =>
      intro retries f le _ hret
      have h0 : handler retries = .returned r := by simpa using hret
      simpa using retry_loop_returned operation handler clock f retries le r h0
  | succ kk ih =>
      intro retries f le hprev hret
      have h0 : handler retries = .raised (msg retries) := by
        simpa using hprev 0 (Nat.succ_pos kk)
      rw [show kk + 1 + f + 1 = (kk + f + 1) + 1 from by omega]
      rw [retry_loop_raised_step operation handler clock (kk + f + 1) retries
        le (msg retries) h0]
      have hprev1 : ∀ j, j < kk →
          handler (retries + 1 + j) = .raised (msg (retries + 1 + j)) := by
        intro j hj
        have e : retries + 1 + j = retries + (j + 1) := by omega
        rw [e]
        exact hprev (j + 1) (by omega)
      have hret1 : handler (retries + 1 + kk) = .returned r := by
        have e : retries + 1 + kk = retries + (kk + 1) := by omega
        rw [e]
        exact hret
      rw [ih (retries + 1) f (some (msg retries)) hprev1 hret1]
      have e : retries + 1 + kk = retries + (kk + 1) := by omega
      simp [e]

/-- With the source stub evaluate_condition, the skip branch of
_execute_operation is never taken. -/
lemma skip_guard_false (operation : Operation) :
    (strTruthy operation.skip_if
      && evaluate_condition (operation.skip_if.getD "")) = false := by
  simp [evaluate_condition]

/-- When no handler is registered for the operation type,
execute_operation returns the no-handler failure immediately with zero
handler calls. -/
lemma execute_operation_none (operation : Operation)
    (gh : OperationType → Option Handler) (clock : Clock)
    (h : gh operation.type = none) :
    execute_operation operation gh clock =
      ({ operation := operation
         success := false
         error := some ("No handler registered for operation type: "
           ++ operation.type.value)
         duration := 0.0
         timestamp := some clock.now }, 0) := by
  simp [execute_operation, evaluate_condition, h]

/-- When a handler is registered, execute_operation runs the retry loop
with fuel retry_count + 1 from attempt counter 0. -/
lemma execute_operation_some (operation : Operation)
    (gh : OperationType → Option Handler) (handler : Handler) (clock : Clock)
    (h : gh operation.type = some handler) :
    execute_operation operation gh clock =
      retry_loop operation handler clock (operation.retry_count + 1).toNat
        0 none := by
  simp [execute_operation, evaluate_condition, h]

/-- C1: for an Operation with retry_count = N whose handler raises on
every attempt, execute_operation makes exactly N + 1 handler calls and
returns one ExecutionResult with success = false, retries_used = N + 1,
and error equal to the message of the last raised exception. -/
theorem claim1_retry_exhaustion (operation : Operation)
    (gh : OperationType → Option Handler) (handler : Handler)
    (msg : Nat → String) (clock : Clock) (N : Nat)
    (hrc : operation.retry_count = (N : Int))
    (hreg : gh operation.type = some handler)
    (hraise : ∀ n, handler n = .raised (msg n)) :
    execute_operation operation gh clock =
      ({ operation := operation
         success := false
         error := some (msg N)
         duration := clock.elapsed
         timestamp := some clock.now
         retries_used := N + 1 }, N + 1) := by
  rw [execute_operation_some operation gh handler clock hreg, hrc]
  rw [show ((N : Int) + 1).toNat = N + 1 from by omega]
  simpa using retry_loop_all_raised operation handler clock msg hraise N 0 none

/-- Witness for C1 at retry_count = 2: three handler calls, failure with
retries_used = 3 and the message of the third raised exception. -/
theorem claim1_witness :
    execute_operation opRetry ghRaise clockW =
      ({ operation := opRetry
         success := false
         error := some "attempt failed 2"
         duration := clockW.elapsed
         timestamp := some clockW.now
         retries_used := 3 }, 3) :=
  claim1_retry_exhaustion opRetry ghRaise handlerAlwaysRaises
    (fun n => "attempt failed " ++ toString n) clockW 2 rfl rfl (fun _ => rfl)

/-- C7: for an Operation whose type has no registered handler,
execute_operation returns immediately a failed ExecutionResult whose
error names the unregistered type, making zero handler calls and zero
retry attempts regardless of retry_count. -/
theorem claim7_no_handler (operation : Operation)
    (gh : OperationType → Option Handler) (clock : Clock)
    (h : gh operation.type = none) :
    execute_operation operation gh clock =
      ({ operation := operation
         success := false
         error := some ("No handler registered for operation type: "
           ++ operation.type.value)
         duration := 0.0
         timestamp := some clock.now }, 0) :=
  execute_operation_none operation gh clock h

/-- Witness for C7 on an http_request operation with retry_count = 5 and
an empty registry. -/
theorem claim7_witness :
    execute_operation opNoHandler ghEmpty clockW =
      ({ operation := opNoHandler
         success := false
         error := some "No handler registered for operation type: http_request"
         duration := 0.0
         timestamp := some clockW.now }, 0) :=
  claim7_no_handler opNoHandler ghEmpty clockW rfl

/-- C10: in the retry loop, a handler that returns normally with
success = false has its result returned immediately without any retry:
after k raised attempts followed by a normal failure return, the call
count is k + 1, retries_used is stamped to k and duration is overwritten
with the whole-sequence elapsed time; in particular a handler that
always returns failure results normally is called exactly once,
regardless of retry_count. -/
theorem claim10_no_retry_on_returned_failure (operation : Operation)
    (gh : OperationType → Option Handler) (handler : Handler)
    (msg : Nat → String) (r : ExecutionResult) (clock : Clock) (N k : Nat)
    (hrc : operation.retry_count = (N : Int))
    (hreg : gh operation.type = some handler)
    (hk : k ≤ N)
    (hprev : ∀ j, j < k → handler j = .raised (msg j))
    (hret : handler k = .returned r)
    (hfail : r.success = false) :
    execute_operation operation gh clock =
      ({ r with retries_used := k, duration := clock.elapsed }, k + 1) ∧
    (execute_operation operation gh clock).1.success = false := by
  have hmain : execute_operation operation gh clock =
      ({ r with retries_used := k, duration := clock.elapsed }, k + 1) := by
    rw [execute_operation_some operation gh handler clock hreg, hrc]
    rw [show ((N : Int) + 1).toNat = k + (N - k) + 1 from by omega]
    have hprev0 : ∀ j, j < k → handler (0 + j) = .raised (msg (0 + j)) := by
      intro j hj
      simpa using hprev j hj
    have hret0 : handler (0 + k) = .returned r := by simpa using hret
    simpa using retry_loop_prefix_raised operation handler clock msg r k 0
      (N - k) none hprev0 hret0
  refine ⟨hmain, ?_⟩
  rw [hmain]
  exact hfail

/-- Witness for C10: one raised attempt, then a normal failure return on
a retry_count = 2 operation; two handler calls in total, retries_used 1. -/
theorem claim10_witness :
    execute_operation opRetry ghRaiseThenFail clockW =
      ({ resHandlerFailure with
           retries_used := 1
           duration := clockW.elapsed }, 2) ∧
    (execute_operation opRetry ghRaiseThenFail clockW).1.success = false :=
  claim10_no_retry_on_returned_failure opRetry ghRaiseThenFail
    handlerRaiseThenFail (fun _ => "first failure") resHandlerFailure clockW
    2 1 rfl rfl (by omega)
    (fun j hj => by interval_cases j; rfl) rfl rfl

/-- C8 counterexample: ScriptHandler.execute on a process that exits with
return code 1 and writes nothing to stderr returns a failed
ExecutionResult whose error field is None, although this is a normal
handler return and not the exhausted-retries path. -/
theorem claim8_counterexample :
    (script_handler_execute opSilent (.completed 1 "" "")).success = false ∧
    (script_handler_execute opSilent (.completed 1 "" "")).error = none := by
  constructor <;> rfl

/-- C8 amended: failed results produced by the engine itself carry a
populated error (the no-handler failure, the exhausted-retries failure,
whose message is the last raised one and may be the empty string, and
the parallel exception-to-result conversion), while ScriptHandler
produces a failed result with error = None exactly when the process
completes with a nonzero return code and empty stderr. -/
theorem claim8_failed_error_populated :
    (∀ (operation : Operation) (gh : OperationType → Option Handler)
        (clock : Clock), gh operation.type = none →
      (execute_operation operation gh clock).1.error ≠ none) ∧
    (∀ (operation : Operation) (gh : OperationType → Option Handler)
        (handler : Handler) (msg : Nat → String) (clock : Clock) (N : Nat),
      operation.retry_count = (N : Int) →
      gh operation.type = some handler →
      (∀ n, handler n = .raised (msg n)) →
      (execute_operation operation gh clock).1.error = some (msg N)) ∧
    (∀ (operation : Operation) (m : String),
      gather_result (operation, TaskOutcome.exn m) =
        { operation := operation
          success := false
          error := some m
          duration := 0.0 }) ∧
    (∀ (operation : Operation) (world : ProcessOutcome),
      (script_handler_execute operation world).success = false →
      (script_handler_execute operation world).error ≠ none ∨
        ∃ rc out, world = .completed rc out "" ∧ rc ≠ 0) := by
  refine ⟨?_, ?_, ?_, ?_⟩
  · intro operation gh clock h
    rw [execute_operation_none operation gh clock h]
    simp
  · intro operation gh handler msg clock N hrc hreg hraise
    rw [execute_operation_some operation gh handler clock hreg, hrc]
    rw [show ((N : Int) + 1).toNat = N + 1 from by omega]
    rw [retry_loop_all_raised operation handler clock msg hraise N 0 none]
    simp
  · intro operation m
    rfl
  · intro operation world hfail
    cases world with
    | completed rc out err =>
        by_cases herr : err = ""
        · subst herr
          refine Or.inr ⟨rc, out, rfl, ?_⟩
          intro hrc
          subst hrc
          simp [script_handler_execute] at hfail
        · refine Or.inl ?_
          have hrc : ¬ rc = 0 := by
            intro hrc
            subst hrc
            simp [script_handler_execute] at hfail
          simp [script_handler_execute, herr, hrc]
    | timed_out => exact Or.inl (by simp [script_handler_execute])
    | raised msg => exact Or.inl (by simp [script_handler_execute])

/-- Witness for C8 amended: concrete instances of the no-handler clause
and the ScriptHandler clause. -/
theorem claim8_witness :
    (execute_operation opNoHandler ghEmpty clockW).1.error ≠ none ∧
    ((script_handler_execute opSilent (.raised "spawn failed")).error ≠ none ∨
      ∃ rc out, ProcessOutcome.raised "spawn failed"
        = ProcessOutcome.completed rc out "" ∧ rc ≠ 0) :=
  ⟨claim8_failed_error_populated.1 opNoHandler ghEmpty clockW rfl,
   claim8_failed_error_populated.2.2.2 opSilent (.raised "spawn failed") rfl⟩

/-- Two predicates that never hold together on members of a list count at
most the length between them. -/
lemma countP_pair_le {α : Type} (p q : α → Bool) :
    ∀ l : List α, (∀ a ∈ l, (p a && q a) = false) →
      l.countP p + l.countP q ≤ l.length := by
  intro l
  induction l with
  | nil => simp
  | cons a t ih =>
      intro h
      have ha := h a (List.mem_cons_self a t)
      have ht := ih (fun b hb => h b (List.mem_cons_of_mem a hb))
      simp only [List.countP_cons, List.length_cons]
      cases hp : p a <;> cases hq : q a <;> simp_all <;> omega

/-- Three pairwise incompatible predicates count at most the length
between them. -/
lemma countP_triple_le {α : Type} (p q s : α → Bool) :
    ∀ l : List α,
      (∀ a ∈ l, (p a && q a) = false) →
      (∀ a ∈ l, (p a && s a) = false) →
      (∀ a ∈ l, (q a && s a) = false) →
      l.countP p + l.countP q + l.countP s ≤ l.length := by
  intro l
  induction l with
  | nil => simp
  | cons a t ih =>
      intro hpq hps hqs
      have hpqa := hpq a (List.mem_cons_self a t)
      have hpsa := hps a (List.mem_cons_self a t)
      have hqsa := hqs a (List.mem_cons_self a t)
      have ht := ih (fun b hb => hpq b (List.mem_cons_of_mem a hb))
        (fun b hb => hps b (List.mem_cons_of_mem a hb))
        (fun b hb => hqs b (List.mem_cons_of_mem a hb))
      simp only [List.countP_cons, List.length_cons]
      cases hp : p a <;> cases hq : q a <;> cases hs : s a <;> simp_all <;> omega

/-- C2 counterexample: a single result with success = true whose
operation type is skip (exactly what a dry run of a skip-type operation
produces) is counted both as successful and as skipped, so the sum of
the three counters exceeds total_operations. -/
theorem claim2_counterexample :
    ¬ ((aggregate_phase "p" "v" [resSkipSuccess] 0.0).successful_operations
        + (aggregate_phase "p" "v" [resSkipSuccess] 0.0).failed_operations
        + (aggregate_phase "p" "v" [resSkipSuccess] 0.0).skipped_operations
      ≤ (aggregate_phase "p" "v" [resSkipSuccess] 0.0).total_operations) := by
  decide

/-- C2 amended: successful + failed and failed + skipped never exceed
total_operations, the full sum successful + failed + skipped is bounded
by total_operations whenever no result is simultaneously successful and
of skip type, and success_rate is exactly 100.0 when total_operations is
zero. -/
theorem claim2_aggregate_bounds (name ver : String) (dur : Float)
    (results : List ExecutionResult) :
    (aggregate_phase name ver results dur).successful_operations
        + (aggregate_phase name ver results dur).failed_operations
      ≤ (aggregate_phase name ver results dur).total_operations ∧
    (aggregate_phase name ver results dur).failed_operations
        + (aggregate_phase name ver results dur).skipped_operations
      ≤ (aggregate_phase name ver results dur).total_operations ∧
    ((∀ r ∈ results,
        (r.success && decide (r.operation.type = OperationType.skip)) = false) →
      (aggregate_phase name ver results dur).successful_operations
          + (aggregate_phase name ver results dur).failed_operations
          + (aggregate_phase name ver results dur).skipped_operations
        ≤ (aggregate_phase name ver results dur).total_operations) ∧
    (∀ p : PhaseResult, p.total_operations = 0 → p.success_rate = 100.0) := by
  refine ⟨?_, ?_, ?_, ?_⟩
  · apply countP_pair_le
    intro r _
    cases h : r.success <;> simp [h]
  · apply countP_pair_le
    intro r _
    by_cases h : r.operation.type = OperationType.skip <;> simp [h]
  · intro hns
    apply countP_triple_le
    · intro r _
      cases h : r.success <;> simp [h]
    · intro r hr
      exact hns r hr
    · intro r _
      by_cases h : r.operation.type = OperationType.skip <;> simp [h]
  · intro p hp
    simp [PhaseResult.success_rate, hp]

/-- Witness for C2 amended: concrete aggregate over one success and one
failure, plus the empty-phase success rate. -/
theorem claim2_witness :
    (aggregate_phase "p" "v" [resOk, resFailStop] 0.0).successful_operations
        + (aggregate_phase "p" "v" [resOk, resFailStop] 0.0).failed_operations
        + (aggregate_phase "p" "v" [resOk, resFailStop] 0.0).skipped_operations
      ≤ (aggregate_phase "p" "v" [resOk, resFailStop] 0.0).total_operations ∧
    (aggregate_phase "p" "v" [] 0.0).success_rate = 100.0 :=
  ⟨(claim2_aggregate_bounds "p" "v" 0.0 [resOk, resFailStop]).2.2.1
      (by decide),
   (claim2_aggregate_bounds "p" "v" 0.0 []).2.2.2
      (aggregate_phase "p" "v" [] 0.0) rfl⟩

/-- If the result at position i of the sequential loop is unsuccessful
and the operation at position i has fail_on_error, the loop broke there:
the result list has exactly i + 1 entries and ends with that result. -/
lemma execute_sequential_from_stop (d : Bool)
    (e : Nat → Operation → ExecutionResult) (clock : Clock) :
    ∀ (ops : List Operation) (s i : Nat) (op : Operation)
      (r : ExecutionResult),
      ops.get? i = some op →
      (execute_sequential_from d e clock s ops).get? i = some r →
      r.success = false → op.fail_on_error = true →
      (execute_sequential_from d e clock s ops).length = i + 1 ∧
      (execute_sequential_from d e clock s ops).getLast? = some r := by
  intro ops
  induction ops with
  | nil => intro s i op r hop; simp at hop
  | cons op0 rest ih =>
      intro s i op r hop hres hfail hfoe
      by_cases hbr : (!(sequential_step d e clock s op0).success
          && op0.fail_on_error) = true
      · have hlist : execute_sequential_from d e clock s (op0 :: rest) =
            [sequential_step d e clock s op0] := by
          simp [execute_sequential_from, hbr]
        rw [hlist] at hres ⊢
        cases i with
        | zero => simp_all
        | succ n => simp at hres
      · have hlist : execute_sequential_from d e clock s (op0 :: rest) =
            sequential_step d e clock s op0
              :: execute_sequential_from d e clock (s + 1) rest := by
          simp [execute_sequential_from, hbr]
        rw [hlist] at hres ⊢
        cases i with
        | zero =>
            simp at hop hres
            subst hop
            rw [← hres] at hfail
            rw [hfail, hfoe] at hbr
            simp at hbr
        | succ n =>
            simp only [List.get?] at hop hres
            have htail := ih (s + 1) n op r hop hres hfail hfoe
            refine ⟨by simp [htail.1], ?_⟩
            have hne : execute_sequential_from d e clock (s + 1) rest ≠ [] := by
              intro hnil
              rw [hnil] at htail
              simp at htail
            cases htl : execute_sequential_from d e clock (s + 1) rest with
            | nil => exact absurd htl hne
            | cons t0 ts =>
                rw [htl] at htail
                simp only [List.getLast?_cons_cons]
                exact htail.2

/-- If an unsuccessful result with fail_on_error occurs at position i,
the output of the sequential loop does not depend on the outcomes of any
later operation. -/
lemma execute_sequential_from_indep (d : Bool) (clock : Clock) :
    ∀ (ops : List Operation) (s i : Nat) (op : Operation)
      (r : ExecutionResult) (e e2 : Nat → Operation → ExecutionResult),
      ops.get? i = some op →
      (execute_sequential_from d e clock s ops).get? i = some r →
      r.success = false → op.fail_on_error = true →
      (∀ j, j < s + i + 1 → ∀ o, e2 j o = e j o) →
      execute_sequential_from d e2 clock s ops =
        execute_sequential_from d e clock s ops := by
  intro ops
  induction ops with
  | nil => intro s i op r e e2 hop; simp at hop
  | cons op0 rest ih =>
      intro s i op r e e2 hop hres hfail hfoe hagree
      have hstep : sequential_step d e2 clock s op0 =
          sequential_step d e clock s op0 := by
        simp [sequential_step, hagree s (by omega) op0]
      by_cases hbr : (!(sequential_step d e clock s op0).success
          && op0.fail_on_error) = true
      · simp [execute_sequential_from, hstep, hbr]
      · have hlist : execute_sequential_from d e clock s (op0 :: rest) =
            sequential_step d e clock s op0
              :: execute_sequential_from d e clock (s + 1) rest := by
          simp [execute_sequential_from, hbr]
        rw [hlist] at hres
        cases i with
        | zero =>
            simp at hop hres
            subst hop
            rw [← hres] at hfail
            rw [hfail, hfoe] at hbr
            simp at hbr
        | succ n =>
            simp only [List.get?] at hop hres
            have htail := ih (s + 1) n op r e e2 hop hres hfail hfoe
              (fun j hj o => hagree j (by omega) o)
            simp [execute_sequential_from, hstep, hbr, htail]

/-- If no operation of the group produces an unsuccessful result with
fail_on_error, the sequential loop never breaks and returns one result
per operation, in input order. -/
lemma execute_sequential_from_no_stop (d : Bool)
    (e : Nat → Operation → ExecutionResult) (clock : Clock) :
    ∀ (ops : List Operation) (s : Nat),
      (∀ i op, ops.get? i = some op →
        (sequential_step d e clock (s + i) op).success = false →
        op.fail_on_error = false) →
      execute_sequential_from d e clock s ops =
        (List.enumFrom s ops).map
          (fun p => sequential_step d e clock p.1 p.2) := by
  intro ops
  induction ops with
  | nil => intro s _; simp [execute_sequential_from]
  | cons op0 rest ih =>
      intro s h
      have h0 : (sequential_step d e clock s op0).success = false →
          op0.fail_on_error = false := by
        have := h 0 op0 (by simp)
        simpa using this
      have hbr : (!(sequential_step d e clock s op0).success
          && op0.fail_on_error) = false := by
        cases hs : (sequential_step d e clock s op0).success
        · simp [h0 hs]
        · simp [hs]
      have htail := ih (s + 1) (fun i op hop hf => by
        have := h (i + 1) op (by simpa using hop)
        rw [show s + 1 + i = s + (i + 1) from by omega] at hf
        exact this hf)
      simp [execute_sequential_from, hbr, htail]

/-- C3: in sequential group execution, if the result at position i is
unsuccessful and that operation has fail_on_error, the result list has
exactly i + 1 entries, ends with that failed result, and is independent
of the outcomes of all later operations; and when no operation fails
with fail_on_error set, every operation is executed in list order, one
result each. -/
theorem claim3_sequential_stop (d : Bool)
    (e : Nat → Operation → ExecutionResult) (clock : Clock)
    (ops : List Operation) :
    (∀ i op r, ops.get? i = some op →
      (execute_sequential d e clock ops).get? i = some r →
      r.success = false → op.fail_on_error = true →
      (execute_sequential d e clock ops).length = i + 1 ∧
      (execute_sequential d e clock ops).getLast? = some r ∧
      ∀ e2 : Nat → Operation → ExecutionResult,
        (∀ j, j ≤ i → ∀ o, e2 j o = e j o) →
        execute_sequential d e2 clock ops =
          execute_sequential d e clock ops) ∧
    ((∀ i op, ops.get? i = some op →
        (sequential_step d e clock i op).success = false →
        op.fail_on_error = false) →
      execute_sequential d e clock ops =
        ops.enum.map (fun p => sequential_step d e clock p.1 p.2)) := by
  constructor
  · intro i op r hop hres hfail hfoe
    have hstop := execute_sequential_from_stop d e clock ops 0 i op r
      hop hres hfail hfoe
    refine ⟨hstop.1, hstop.2, ?_⟩
    intro e2 hagree
    exact execute_sequential_from_indep d clock ops 0 i op r e e2
      hop hres hfail hfoe (fun j hj o => hagree j (by omega) o)
  · intro h
    have := execute_sequential_from_no_stop d e clock ops 0
      (fun i op hop hf => h i op hop (by simpa using hf))
    simpa [List.enum] using this

/-- Witness for C3: with the first operation failing under
fail_on_error, the two-operation group stops after one result. -/
theorem claim3_witness :
    (execute_sequential false execOpW clockW [opFailStop, opOk]).length = 1 ∧
    (execute_sequential false execOpW clockW [opFailStop, opOk]).getLast?
      = some resFailStop :=
  ⟨((claim3_sequential_stop false execOpW clockW [opFailStop, opOk]).1
      0 opFailStop resFailStop rfl rfl rfl rfl).1,
   ((claim3_sequential_stop false execOpW clockW [opFailStop, opOk]).1
      0 opFailStop resFailStop rfl rfl rfl rfl).2.1⟩

/-- Concatenating the chunks gives back the original list whenever the
chunk size is positive. -/
lemma chunk_list_aux_flatten {α : Type} (n : Nat) (hn : 0 < n) :
    ∀ (fuel : Nat) (l : List α), l.length ≤ fuel →
      (chunk_list_aux n fuel l).flatten = l := by
  intro fuel
  induction fuel with
  | zero =>
      intro l hl
      have : l = [] := List.length_eq_zero.mp (Nat.le_zero.mp hl)
      subst this
      simp [chunk_list_aux]
  | succ f ih =>
      intro l hl
      cases l with
      | nil => simp [chunk_list_aux]
      | cons a t =>
          have hl2 : t.length + 1 ≤ f + 1 := by simpa using hl
          have hdrop : ((a :: t).drop n).length ≤ f := by
            simp only [List.length_drop, List.length_cons]
            omega
          calc (chunk_list_aux n (f + 1) (a :: t)).flatten
              = (a :: t).take n ++ (chunk_list_aux n f ((a :: t).drop n)).flatten :=
                rfl
            _ = (a :: t).take n ++ (a :: t).drop n := by rw [ih _ hdrop]
            _ = a :: t := List.take_append_drop n (a :: t)

/-- Flattening after mapping over each chunk is mapping over the
flattened list. -/
lemma flatten_map_map {α β : Type} (f : α → β) :
    ∀ xs : List (List α), (xs.map (List.map f)).flatten = xs.flatten.map f := by
  intro xs
  induction xs with
  | nil => simp
  | cons c cs ih =>
      simp only [List.map_cons, List.flatten_cons, List.map_append, ih]

/-- For a positive max_parallel, the parallel path is the conversion of
every created task outcome, chunking left intact. -/
lemma execute_parallel_eq_map (d : Bool) (task_outcome : Nat → TaskOutcome)
    (clock : Clock) (n : Nat) (ops : List Operation) (hn : 0 < n) :
    execute_parallel d task_outcome clock n ops =
      (parallel_tasks d task_outcome clock ops).map gather_result := by
  unfold execute_parallel chunk_list
  rw [flatten_map_map]
  rw [chunk_list_aux_flatten n hn _ _ (Nat.le_refl _)]

/-- Mapping a function of the element only over an enumeration is a map
over the original list. -/
lemma enumFrom_map_snd {α β : Type} (f : α → β) :
    ∀ (l : List α) (s : Nat),
      (List.enumFrom s l).map (fun p => f p.2) = l.map f := by
  intro l
  induction l with
  | nil => intro s; simp
  | cons a t ih => intro s; simp [ih]

/-- Enumeration starts at index 0. -/
lemma enum_eq_enumFrom {α : Type} (l : List α) : l.enum = List.enumFrom 0 l :=
  rfl

/-- C4: for a positive max_parallel, the parallel path returns exactly
one ExecutionResult per input operation, at the input position of that
operation, regardless of failures among the tasks; a task that raises is
converted into a failed ExecutionResult with duration 0 and error equal
to the exception text. -/
theorem claim4_parallel_order (task_outcome : Nat → TaskOutcome)
    (clock : Clock) (n : Nat) (ops : List Operation) (hn : 0 < n) :
    (execute_parallel false task_outcome clock n ops).length = ops.length ∧
    ∀ i op, ops.get? i = some op →
      (execute_parallel false task_outcome clock n ops).get? i =
        some (gather_result (op, task_outcome i)) ∧
      ∀ m, task_outcome i = .exn m →
        (execute_parallel false task_outcome clock n ops).get? i =
          some { operation := op
                 success := false
                 error := some m
                 duration := 0.0 } := by
  rw [execute_parallel_eq_map false task_outcome clock n ops hn]
  constructor
  · simp [parallel_tasks]
  · intro i op hop
    have hget : ((parallel_tasks false task_outcome clock ops).map
        gather_result).get? i = some (gather_result (op, task_outcome i)) := by
      simp only [parallel_tasks, List.map_map, List.get?_map,
        List.get?_enum, hop]
      rfl
    refine ⟨hget, ?_⟩
    intro m hm
    rw [hget, hm]
    rfl

/-- Witness for C4: two operations, the first task raising and the
second returning a successful result, with max_parallel = 5. -/
theorem claim4_witness :
    (execute_parallel false taskOutcomeW clockW 5 [opFailStop, opOk]).length
      = 2 ∧
    (execute_parallel false taskOutcomeW clockW 5 [opFailStop, opOk]).get? 0
      = some { operation := opFailStop
               success := false
               error := some "task blew up"
               duration := 0.0 } ∧
    (execute_parallel false taskOutcomeW clockW 5 [opFailStop, opOk]).get? 1
      = some resOk :=
  ⟨(claim4_parallel_order taskOutcomeW clockW 5 [opFailStop, opOk]
      (by omega)).1,
   ((claim4_parallel_order taskOutcomeW clockW 5 [opFailStop, opOk]
      (by omega)).2 0 opFailStop rfl).2 "task blew up" rfl,
   ((claim4_parallel_order taskOutcomeW clockW 5 [opFailStop, opOk]
      (by omega)).2 1 opOk rfl).1⟩

/-- C5: with dry_run set, both group paths return for every operation the
synthetic dry-run result, whose output is the dry-run banner with the
operation description, with success = true and duration 0; no handler
outcome is consulted, as the right-hand sides do not mention the
execution functions at all. -/
theorem claim5_dry_run (e : Nat → Operation → ExecutionResult)
    (task_outcome : Nat → TaskOutcome) (clock : Clock) (n : Nat)
    (ops : List Operation) (hn : 0 < n) :
    execute_sequential true e clock ops =
      ops.map (fun op => create_dry_run_result op clock) ∧
    execute_parallel true task_outcome clock n ops =
      ops.map (fun op => create_dry_run_result op clock) ∧
    ∀ op, create_dry_run_result op clock =
      { operation := op
        success := true
        output := some ("[DRY RUN] Would execute: " ++ op.description)
        duration := 0.0
        timestamp := some clock.now } := by
  refine ⟨?_, ?_, fun op => rfl⟩
  · have hns := execute_sequential_from_no_stop true e clock ops 0 (by
      intro i op hop hf
      simp [sequential_step, create_dry_run_result] at hf)
    calc execute_sequential true e clock ops
        = (List.enumFrom 0 ops).map
            (fun p => sequential_step true e clock p.1 p.2) := hns
      _ = (List.enumFrom 0 ops).map
            (fun p => create_dry_run_result p.2 clock) := by
          apply List.map_congr_left
          intro p _
          rfl
      _ = ops.map (fun op => create_dry_run_result op clock) :=
          enumFrom_map_snd (fun op => create_dry_run_result op clock) ops 0
  · rw [execute_parallel_eq_map true task_outcome clock n ops hn]
    have h1 : parallel_tasks true task_outcome clock ops =
        (List.enumFrom 0 ops).map
          (fun p => (p.2, TaskOutcome.ok (create_dry_run_result p.2 clock))) := by
      simp [parallel_tasks, enum_eq_enumFrom]
    rw [h1, List.map_map]
    calc (List.enumFrom 0 ops).map (gather_result ∘
          fun p => (p.2, TaskOutcome.ok (create_dry_run_result p.2 clock)))
        = (List.enumFrom 0 ops).map
            (fun p => create_dry_run_result p.2 clock) := by
          apply List.map_congr_left
          intro p _
          rfl
      _ = ops.map (fun op => create_dry_run_result op clock) :=
          enumFrom_map_snd (fun op => create_dry_run_result op clock) ops 0

/-- Witness for C5 on a two-operation group with max_parallel = 5. -/
theorem claim5_witness :
    execute_sequential true execOpW clockW [opFailStop, opOk] =
      [create_dry_run_result opFailStop clockW,
       create_dry_run_result opOk clockW] ∧
    execute_parallel true taskOutcomeW clockW 5 [opFailStop, opOk] =
      [create_dry_run_result opFailStop clockW,
       create_dry_run_result opOk clockW] :=
  ⟨(claim5_dry_run execOpW taskOutcomeW clockW 5 [opFailStop, opOk]
      (by omega)).1,
   (claim5_dry_run execOpW taskOutcomeW clockW 5 [opFailStop, opOk]
      (by omega)).2.1⟩

/-- C9 evaluation at the failing input: with three operations and
max_parallel = 1, the task-creation loop that precedes any gather call
creates all three tasks, exceeding the configured ceiling of one; the
chunking only partitions the already-created tasks into three singleton
chunks for awaiting. -/
theorem claim9_eager_task_creation :
    (parallel_tasks false taskOutcomeOk clockW opsThree).length = 3 ∧
    1 < (parallel_tasks false taskOutcomeOk clockW opsThree).length ∧
    (chunk_list (parallel_tasks false taskOutcomeOk clockW opsThree) 1).map
      List.length = [1, 1, 1] := by
  refine ⟨rfl, by decide, rfl⟩

/-- C6: the full-setup loop walks the phase list in declared order; a
disabled phase is skipped without being run, recorded or marked
completed; a phase with a dependency outside the completed set is
skipped likewise; consequently, for phases A (disabled) and B depending
on A, run_full_setup returns the empty result list. -/
theorem claim6_dependency_gating (run_phase : Phase → PhaseResult)
    (gcoe : Bool) :
    (∀ (phase : Phase) (rest : List Phase) (completed : List String),
      phase.enabled = false →
      run_full_setup_aux run_phase gcoe (phase :: rest) completed =
        run_full_setup_aux run_phase gcoe rest completed) ∧
    (∀ (phase : Phase) (rest : List Phase) (completed : List String)
        (dep : String),
      dep ∈ phase.depends_on → completed.contains dep = false →
      run_full_setup_aux run_phase gcoe (phase :: rest) completed =
        run_full_setup_aux run_phase gcoe rest completed) ∧
    (∀ A B : Phase, A.enabled = false → B.depends_on = [A.name] →
      run_full_setup run_phase gcoe [A, B] = []) := by
  have hdep : ∀ (phase : Phase) (rest : List Phase) (completed : List String)
      (dep : String),
      dep ∈ phase.depends_on → completed.contains dep = false →
      run_full_setup_aux run_phase gcoe (phase :: rest) completed =
        run_full_setup_aux run_phase gcoe rest completed := by
    intro phase rest completed dep hmem hnc
    by_cases hen : phase.enabled
    · simp only [run_full_setup_aux, hen]
      have hne : (phase.depends_on.filter
          (fun d => !completed.contains d)).isEmpty = false := by
        have hfil : dep ∈ phase.depends_on.filter
            (fun d => !completed.contains d) :=
          List.mem_filter.mpr ⟨hmem, by rw [hnc]; rfl⟩
        cases hcase : phase.depends_on.filter (fun d => !completed.contains d)
        · rw [hcase] at hfil; simp at hfil
        · simp [hcase]
      rw [hne]
      rfl
    · simp [run_full_setup_aux, hen]
  refine ⟨?_, hdep, ?_⟩
  · intro phase rest completed hdis
    simp [run_full_setup_aux, hdis]
  · intro A B hdis hBdep
    have h1 : run_full_setup run_phase gcoe [A, B] =
        run_full_setup_aux run_phase gcoe [B] [] := by
      simp [run_full_setup, run_full_setup_aux, hdis]
    rw [h1, hdep B [] [] A.name (by simp [hBdep]) rfl]
    rfl

/-- Witness for C6 on concrete phases A (disabled) and B (depending on
A): running the full setup yields no phase results. -/
theorem claim6_witness :
    run_full_setup runPhaseW false [phaseA, phaseB] = [] :=
  (claim6_dependency_gating runPhaseW false).2.2 phaseA phaseB rfl rfl

end Phazr
